import Mathlib

/-!
Shallow embedding of the LPS25H I2C drivers.

Sources embedded here:

* `src/lps25h-iio/lps25h.c`     (namespace `IioDriver`)
* `src/lps25h-sysfs/lps25h.c`   (namespace `SysfsDriver`)
* `src/lps25h-sysfs/lps25h-2.c` (namespace `SysfsDriver2`)

The bus and the host kernel are an oracle (`Host`) whose answers may depend on
everything that happened before; the state threaded through every driver
function is the ordered log of the calls the driver made (`List Event`).
Machine integers are mathematical integers with explicit wrapping casts
(`s16`, `s32`, `u8`).
-/

namespace Lps25h

/-! ## Machine integers -/

/-- Conversion to a signed 16-bit integer (two's complement wrap). -/
def s16 (x : Int) : Int := (x + 32768) % 65536 - 32768

/-- Conversion to a signed 32-bit integer (two's complement wrap). -/
def s32 (x : Int) : Int := (x + 2147483648) % 4294967296 - 2147483648

/-- Conversion to an unsigned 8-bit integer. -/
def u8 (x : Int) : Nat := (x % 256).toNat

/-! ## Constants -/

/-- Register address, `#define LPS25H_WHO_AM_I_REG 0x0F`. -/
def LPS25H_WHO_AM_I_REG : Nat := 0x0F

/-- Register address, `#define LPS25H_CTRL_REG1 0x20`. -/
def LPS25H_CTRL_REG1 : Nat := 0x20

/-- Register address, `#define LPS25H_TEMP_OUT_L_REG 0x2B`. -/
def LPS25H_TEMP_OUT_L_REG : Nat := 0x2B

/-- Register address, `#define LPS25H_TEMP_OUT_H_REG 0x2C`. -/
def LPS25H_TEMP_OUT_H_REG : Nat := 0x2C

/-- Kernel errno `EINVAL`. -/
def EINVAL : Int := 22

/-- Kernel errno `ENOMEM`. -/
def ENOMEM : Int := 12

/-- Kernel enumerator `IIO_CHAN_INFO_SCALE` of `enum iio_chan_info_enum`. -/
def IIO_CHAN_INFO_SCALE : Int := 2

/-- Kernel enumerator `IIO_TEMP` of `enum iio_chan_type`. -/
def IIO_TEMP : Int := 9

/-- Kernel return code `IIO_VAL_INT_PLUS_MICRO`. -/
def IIO_VAL_INT_PLUS_MICRO : Int := 2

/-! ## Host and bus -/

/-- One call made by the driver into the bus or the host kernel, with the
answer it received. -/
inductive Event where
  | i2c_read (reg : Nat) (ret : Int)
  | i2c_write (reg : Nat) (val : Nat) (ret : Int)
  | devm_kzalloc (ok : Bool)
  | i2c_set_clientdata
  | sysfs_create_group (ret : Int)
  | sysfs_remove_group
  | iio_device_unregister
  | dev_err (msg : String)
  deriving DecidableEq, Repr

/-- Behaviour of the bus and of the host kernel: every answer is a function of
the log of earlier calls and of the arguments of the call. -/
structure Host where
  i2c_smbus_read_byte_data : List Event → Nat → Int
  i2c_smbus_write_byte_data : List Event → Nat → Nat → Int
  devm_kzalloc : List Event → Bool
  sysfs_create_group : List Event → Int

/-- The `char *buf` page handed to a sysfs show function: offset to byte. -/
abbrev Buf := Nat → Nat

/-- Store the bytes `bs` into `buf` starting at offset `off`. -/
def store (buf : Buf) (off : Nat) (bs : List Nat) : Buf :=
  fun i => if off ≤ i ∧ i < off + bs.length then bs.getD (i - off) 0 else buf i

/-- Kernel `sprintf(buf, "%d\n", v)`: the decimal digits of `v` (with a leading
minus sign when negative), a newline and a terminating NUL are stored at the
start of `buf`; the return value counts the characters before the NUL. -/
def sprintf_d_nl (buf : Buf) (v : Int) : Int × Buf :=
  let cs : List Nat := (toString v ++ "\n").toList.map Char.toNat
  ((cs.length : Int), store buf 0 (cs ++ [0]))

/-- What a reader of a sysfs attribute receives from a show function that
returned `ret` and left `buf`: the first `ret` bytes, nothing on an error. -/
def shown (ret : Int) (buf : Buf) : List Nat :=
  (List.range ret.toNat).map buf

/-- Result of one `lps25h_read_raw` call: return value, contents of `*val` and
`*val2`, and the log. -/
structure ReadRaw where
  ret : Int
  val : Int
  val2 : Int
  trace : List Event
  deriving DecidableEq, Repr

/-- Fields of `struct iio_chan_spec` that the driver sets in
`lps25h_channels`. -/
structure iio_chan_spec where
  type : Int
  indexed : Nat
  channel : Int
  address : Nat
  scan_index : Int
  deriving DecidableEq, Repr

/-- Number of attribute groups created successfully and not yet removed. -/
def registered_groups : List Event → Int
  | [] => 0
  | Event.sysfs_create_group ret :: es =>
      (if ret = 0 then 1 else 0) + registered_groups es
  | Event.sysfs_remove_group :: es => registered_groups es - 1
  | _ :: es => registered_groups es

/-- The event is a write of `val` to the control register, whatever the
transport answered. -/
def is_ctrl_write (val : Nat) : Event → Bool
  | Event.i2c_write reg v _ => decide (reg = LPS25H_CTRL_REG1 ∧ v = val)
  | _ => false

/-- The event unregisters a surface (attribute group or IIO device). -/
def is_unregister : Event → Bool
  | Event.sysfs_remove_group => true
  | Event.iio_device_unregister => true
  | _ => false

/-- Position of the first event satisfying `p`, the length when there is none. -/
def first_index (p : Event → Bool) : List Event → Nat
  | [] => 0
  | e :: es => if p e then 0 else first_index p es + 1

/-- Result of a sysfs show function: return value, page contents, log. -/
structure Shown where
  ret : Int
  buf : Buf
  trace : List Event

/-- A host whose registers and transport answers never change: `lo`, `hi` and
`ident` answer reads of the temperature and identity registers, `wr` answers
every write, allocation and group creation succeed. -/
def fixedHost (lo hi ident wr : Int) : Host where
  i2c_smbus_read_byte_data := fun _ reg =>
    if reg = LPS25H_TEMP_OUT_L_REG then lo
    else if reg = LPS25H_TEMP_OUT_H_REG then hi
    else ident
  i2c_smbus_write_byte_data := fun _ _ _ => wr
  devm_kzalloc := fun _ => true
  sysfs_create_group := fun _ => 0

/-- An all-zero page. -/
def zeroBuf : Buf := fun _ => 0

/-! ## `src/lps25h-iio/lps25h.c` -/

namespace IioDriver

/-- Line 40, `raw = (s16)(ret & 0xff);`. -/
def raw_low (ret : Int) : Int := s16 (Int.land ret 0xff)

/-- Line 46, `raw |= (s16)((ret & 0xff) << 8);`: both operands are promoted to
`int`, combined, and the result is converted back to `s16`. -/
def raw_or_high (raw ret : Int) : Int :=
  s16 (Int.lor raw (s16 (s32 (Int.land ret 0xff <<< (8 : Int)))))

/-- Line 48, `temp = 42500 + (((s32)raw * 1000) / 480);`. -/
def temp_of_raw (raw : Int) : Int :=
  s32 (42500 + (s32 (s32 raw * 1000)).tdiv 480)

/-- The body of `lps25h_read_raw`, lines 23 to 60. Next to the visible result
(return value, `*val`, `*val2`, log) it hands back the content of the local
`s16 raw` once line 46 has completed it, and nothing on the paths that return
before that line. -/
def lps25h_read_raw_body (host : Host) (chan : iio_chan_spec) (val val2 : Int)
    (mask : Int) (t : List Event) : ReadRaw × Option Int :=
  if mask = IIO_CHAN_INFO_SCALE then
    if chan.type = IIO_TEMP then
      let ret := host.i2c_smbus_read_byte_data t LPS25H_TEMP_OUT_L_REG
      let t1 := t ++ [Event.i2c_read LPS25H_TEMP_OUT_L_REG ret]
      if ret < 0 then
        ({ ret := ret, val := val, val2 := val2, trace := t1 }, none)
      else
        let raw := raw_low ret
        let ret := host.i2c_smbus_read_byte_data t1 LPS25H_TEMP_OUT_H_REG
        let t2 := t1 ++ [Event.i2c_read LPS25H_TEMP_OUT_H_REG ret]
        if ret < 0 then
          ({ ret := ret, val := val, val2 := val2, trace := t2 }, none)
        else
          let raw := raw_or_high raw ret
          let temp := temp_of_raw raw
          ({ ret := IIO_VAL_INT_PLUS_MICRO
             val := s32 (temp.tdiv 1000)
             val2 := s32 (temp.tmod 1000 * 1000)
             trace := t2 }, some raw)
    else
      ({ ret := -EINVAL, val := val, val2 := val2, trace := t }, none)
  else
    ({ ret := -EINVAL, val := val, val2 := val2, trace := t }, none)

/-- The function `lps25h_read_raw`, lines 23 to 60: what the caller sees of
its body. -/
def lps25h_read_raw (host : Host) (chan : iio_chan_spec) (val val2 : Int)
    (mask : Int) (t : List Event) : ReadRaw :=
  (lps25h_read_raw_body host chan val val2 mask t).1

/-- The single entry of `lps25h_channels`, lines 62 to 78. -/
def lps25h_channels : List iio_chan_spec :=
  [{ type := IIO_TEMP, indexed := 1, channel := 0,
     address := LPS25H_TEMP_OUT_L_REG, scan_index := 0 }]

/-- The function `lps25h_enable`, lines 84 to 88. -/
def lps25h_enable (host : Host) (t : List Event) : Int × List Event :=
  let ret := host.i2c_smbus_write_byte_data t LPS25H_CTRL_REG1 0x90
  (ret, t ++ [Event.i2c_write LPS25H_CTRL_REG1 0x90 ret])

/-- The function `lps25h_disable`, lines 90 to 94. -/
def lps25h_disable (host : Host) (t : List Event) : Int × List Event :=
  let ret := host.i2c_smbus_write_byte_data t LPS25H_CTRL_REG1 0x00
  (ret, t ++ [Event.i2c_write LPS25H_CTRL_REG1 0x00 ret])

/-- The function `lps25h_i2c_remove`, lines 143 to 153; the result of
`lps25h_disable` is discarded. -/
def lps25h_i2c_remove (host : Host) (t : List Event) : Int × List Event :=
  let t1 := t ++ [Event.iio_device_unregister]
  let d := lps25h_disable host t1
  (0, d.2)

end IioDriver

/-! ## `src/lps25h-sysfs/lps25h.c` -/

namespace SysfsDriver

/-- The function `lps25h_who_am_i`, lines 23 to 39. -/
def lps25h_who_am_i (host : Host) (buf : Buf) (t : List Event) : Shown :=
  let ret := host.i2c_smbus_read_byte_data t LPS25H_WHO_AM_I_REG
  let t1 := t ++ [Event.i2c_read LPS25H_WHO_AM_I_REG ret]
  if ret < 0 then
    { ret := ret, buf := buf, trace := t1 }
  else
    { ret := 1, buf := Function.update buf 0 (u8 ret), trace := t1 }

/-- Line 55, `temp = (s16)(ret & 0xff);`. -/
def temp_low (ret : Int) : Int := s16 (Int.land ret 0xff)

/-- Line 62, `temp |= (s16)((ret & 0xff) << 8);`. -/
def temp_or_high (temp ret : Int) : Int :=
  s16 (Int.lor temp (s16 (s32 (Int.land ret 0xff <<< (8 : Int)))))

/-- Line 65, the printed expression `4250 + (((s32)temp * 100) / 480)`. -/
def centi_of_temp (temp : Int) : Int :=
  s32 (4250 + (s32 (s32 temp * 100)).tdiv 480)

/-- The body of `lps25h_temp_read`, lines 41 to 66. Next to the visible result
(return value, page, log) it hands back the content of the local `s16 temp`
once line 62 has completed it, and nothing on the paths that return before
that line. -/
def lps25h_temp_read_body (host : Host) (buf : Buf) (t : List Event) :
    Shown × Option Int :=
  let ret := host.i2c_smbus_read_byte_data t LPS25H_TEMP_OUT_L_REG
  let t1 := t ++ [Event.i2c_read LPS25H_TEMP_OUT_L_REG ret]
  if ret < 0 then
    ({ ret := ret, buf := buf, trace := t1 }, none)
  else
    let temp := temp_low ret
    let ret := host.i2c_smbus_read_byte_data t1 LPS25H_TEMP_OUT_H_REG
    let t2 := t1 ++ [Event.i2c_read LPS25H_TEMP_OUT_H_REG ret]
    if ret < 0 then
      ({ ret := ret, buf := buf, trace := t2 }, none)
    else
      let temp := temp_or_high temp ret
      let r := sprintf_d_nl buf (centi_of_temp temp)
      ({ ret := r.1, buf := r.2, trace := t2 }, some temp)

/-- The function `lps25h_temp_read`, lines 41 to 66: what the caller sees of
its body. -/
def lps25h_temp_read (host : Host) (buf : Buf) (t : List Event) : Shown :=
  (lps25h_temp_read_body host buf t).1

/-- The function `lps25h_enable`, lines 81 to 85. -/
def lps25h_enable (host : Host) (t : List Event) : Int × List Event :=
  let ret := host.i2c_smbus_write_byte_data t LPS25H_CTRL_REG1 0x90
  (ret, t ++ [Event.i2c_write LPS25H_CTRL_REG1 0x90 ret])

/-- The function `lps25h_disable`, lines 87 to 91. -/
def lps25h_disable (host : Host) (t : List Event) : Int × List Event :=
  let ret := host.i2c_smbus_write_byte_data t LPS25H_CTRL_REG1 0x00
  (ret, t ++ [Event.i2c_write LPS25H_CTRL_REG1 0x00 ret])

/-- The function `lps25h_i2c_probe`, lines 93 to 129. -/
def lps25h_i2c_probe (host : Host) (t : List Event) : Int × List Event :=
  let ok := host.devm_kzalloc t
  let t1 := t ++ [Event.devm_kzalloc ok]
  if !ok then
    (-ENOMEM, t1 ++ [Event.dev_err "failed to allocate memory\n"])
  else
    let t2 := t1 ++ [Event.i2c_set_clientdata]
    let err := host.sysfs_create_group t2
    let t3 := t2 ++ [Event.sysfs_create_group err]
    if err ≠ 0 then
      (err, t3 ++ [Event.dev_err "failed to create sysfs group\n"])
    else
      let e := lps25h_enable host t3
      if e.1 ≠ 0 then
        let t4 := e.2 ++ [Event.dev_err "failed to issue enable\n"]
        (e.1, t4 ++ [Event.sysfs_remove_group])
      else
        (0, e.2)

/-- The function `lps25h_i2c_remove`, lines 131 to 140; the result of
`lps25h_disable` is discarded. -/
def lps25h_i2c_remove (host : Host) (t : List Event) : Int × List Event :=
  let d := lps25h_disable host t
  (0, d.2 ++ [Event.sysfs_remove_group])

end SysfsDriver

/-! ## `src/lps25h-sysfs/lps25h-2.c` -/

namespace SysfsDriver2

/-- The function `lps25h_who_am_i`, lines 20 to 36. -/
def lps25h_who_am_i (host : Host) (buf : Buf) (t : List Event) : Shown :=
  let ret := host.i2c_smbus_read_byte_data t LPS25H_WHO_AM_I_REG
  let t1 := t ++ [Event.i2c_read LPS25H_WHO_AM_I_REG ret]
  if ret < 0 then
    { ret := ret, buf := buf, trace := t1 }
  else
    { ret := 1, buf := Function.update buf 0 (u8 ret), trace := t1 }

end SysfsDriver2

end Lps25h

/-! ## Auxiliary lemmas -/

namespace Lps25h

theorem land_byte (n : Nat) (h : n < 256) : Int.land (n : Int) 0xff = (n : Int) := by
  have h1 : Int.land (n : Int) 0xff = ((n &&& 255 : Nat) : Int) := rfl
  rw [h1]
  have h2 : n &&& 255 = n % 2 ^ 8 := Nat.and_pow_two_sub_one_eq_mod n 8
  rw [h2]
  have : n % 2 ^ 8 = n := Nat.mod_eq_of_lt (by simpa using h)
  rw [this]

theorem shiftLeft_eight (x : Int) : x <<< (8 : Int) = x * 256 := by
  have := Int.shiftLeft_eq_mul_pow x 8
  simpa using this

theorem lor_low_high (l k : Nat) (hl : l < 256) :
    Int.lor (l : Int) ((256 * k : Nat) : Int) = ((256 * k + l : Nat) : Int) := by
  have h1 : Int.lor (l : Int) ((256 * k : Nat) : Int) = ((l ||| 256 * k : Nat) : Int) := rfl
  rw [h1]
  have h2 : 2 ^ 8 * k + l = 2 ^ 8 * k ||| l := Nat.mul_add_lt_is_or (by simpa using hl) k
  have h3 : l ||| 256 * k = 256 * k ||| l := Nat.lor_comm _ _
  rw [h3]
  norm_num at h2
  rw [h2]

theorem ldiff_low (l k : Nat) (hl : l < 256) :
    Nat.ldiff (256 * k + 255) l = 256 * k + (255 - l) := by
  apply Nat.eq_of_testBit_eq
  intro j
  rw [Nat.testBit_ldiff]
  have e1 : (256 * k + 255).testBit j = if j < 8 then (255).testBit j else k.testBit (j - 8) :=
    Nat.testBit_mul_pow_two_add k (i := 8) (b := 255) (by norm_num) j
  have e2 : (256 * k + (255 - l)).testBit j
      = if j < 8 then (255 - l).testBit j else k.testBit (j - 8) :=
    Nat.testBit_mul_pow_two_add k (i := 8) (b := 255 - l) (by norm_num; omega) j
  rw [e1, e2]
  by_cases hj : j < 8
  · simp only [hj, if_true]
    have e3 : (2 ^ 8 - (l + 1)).testBit j = (decide (j < 8) && !l.testBit j) :=
      Nat.testBit_two_pow_sub_succ (by simpa using hl) j
    have e4 : 2 ^ 8 - (l + 1) = 255 - l := by norm_num; omega
    have e5 : (2 ^ 8 - (0 + 1)).testBit j = (decide (j < 8) && !(0 : Nat).testBit j) :=
      Nat.testBit_two_pow_sub_succ (by norm_num) j
    rw [e4] at e3
    norm_num at e5
    rw [e3, e5]
  · simp only [hj, if_false]
    have : l.testBit j = false := by
      apply Nat.testBit_lt_two_pow
      calc l < 256 := hl
        _ = 2 ^ 8 := by norm_num
        _ ≤ 2 ^ j := Nat.pow_le_pow_right (by norm_num) (by omega)
    simp [this]

theorem lor_low_neg (l k : Nat) (hl : l < 256) :
    Int.lor (l : Int) (Int.negSucc (256 * k + 255)) = Int.negSucc (256 * k + (255 - l)) := by
  have h1 : Int.lor (l : Int) (Int.negSucc (256 * k + 255))
      = Int.negSucc (Nat.ldiff (256 * k + 255) l) := rfl
  rw [h1, ldiff_low l k hl]

theorem s16_of_range (x : Int) (h1 : -32768 ≤ x) (h2 : x ≤ 32767) : s16 x = x := by
  unfold s16; omega

theorem s32_of_range (x : Int) (h1 : -2147483648 ≤ x) (h2 : x ≤ 2147483647) : s32 x = x := by
  unfold s32; omega

theorem assemble_bytes (l h : Nat) (hl : l < 256) (hh : h < 256) :
    s16 (Int.lor (s16 (Int.land (l : Int) 0xff))
      (s16 (s32 (Int.land (h : Int) 0xff <<< (8 : Int)))))
      = if h < 128 then (l : Int) + 256 * h else (l : Int) + 256 * h - 65536 := by
  rw [land_byte l hl, land_byte h hh, shiftLeft_eight]
  rw [s16_of_range (l : Int) (by omega) (by omega)]
  rw [s32_of_range ((h : Int) * 256) (by omega) (by omega)]
  by_cases hlt : h < 128
  · rw [if_pos hlt, s16_of_range ((h : Int) * 256) (by omega) (by omega)]
    have e : ((h : Int) * 256) = ((256 * h : Nat) : Int) := by push_cast; ring
    rw [e, lor_low_high l h hl]
    push_cast
    rw [s16_of_range _ (by omega) (by omega)]
    ring
  · rw [if_neg hlt]
    have e : s16 ((h : Int) * 256) = Int.negSucc (256 * (255 - h) + 255) := by
      unfold s16
      rw [Int.negSucc_eq]
      push_cast
      omega
    rw [e, lor_low_neg l (255 - h) hl, Int.negSucc_eq]
    push_cast
    unfold s16
    omega

theorem tdiv_of_nonneg (a b : Int) (ha : 0 ≤ a) (hb : 0 ≤ b) : a.tdiv b = a / b :=
  Int.tdiv_eq_ediv ha hb

theorem tdiv_of_nonpos (a b : Int) (ha : a ≤ 0) (hb : 0 ≤ b) : a.tdiv b = -((-a) / b) := by
  have h1 : (-a).tdiv b = (-a) / b := Int.tdiv_eq_ediv (by omega) hb
  have h2 : (-a).tdiv b = -(a.tdiv b) := Int.neg_tdiv a b
  omega

theorem tmod_eq_sub (a b : Int) : a.tmod b = a - b * a.tdiv b := by
  have := Int.tdiv_add_tmod a b
  omega

theorem shown_store (buf : Buf) (cs : List Nat) :
    shown (cs.length : Int) (store buf 0 (cs ++ [0])) = cs := by
  unfold shown
  apply List.ext_getElem
  · simp
  · intro i h1 h2
    have hi : i < cs.length := h2
    have hlt : i < cs.length + 1 := by omega
    have hget : (cs ++ [0])[i]? = some cs[i] := by
      rw [List.getElem?_append_left hi]
      exact List.getElem?_eq_getElem hi
    simp [store, hlt, hget, List.getD_eq_getElem?_getD]

theorem nat_lor_shift (l h : Nat) (hl : l < 256) : l ||| (h <<< 8) = 256 * h + l := by
  have h2 : 2 ^ 8 * h + l = 2 ^ 8 * h ||| l := Nat.mul_add_lt_is_or (by simpa using hl) h
  rw [Nat.shiftLeft_eq, Nat.lor_comm, Nat.mul_comm h (2 ^ 8), ← h2]
  norm_num

theorem iio_raw_of_bytes (l h : Nat) (hl : l < 256) (hh : h < 256) :
    IioDriver.raw_or_high (IioDriver.raw_low l) h
      = if h < 128 then (l : Int) + 256 * h else (l : Int) + 256 * h - 65536 := by
  unfold IioDriver.raw_or_high IioDriver.raw_low
  exact assemble_bytes l h hl hh

theorem sysfs_temp_of_bytes (l h : Nat) (hl : l < 256) (hh : h < 256) :
    SysfsDriver.temp_or_high (SysfsDriver.temp_low l) h
      = if h < 128 then (l : Int) + 256 * h else (l : Int) + 256 * h - 65536 := by
  unfold SysfsDriver.temp_or_high SysfsDriver.temp_low
  exact assemble_bytes l h hl hh

theorem raw_range (l h : Nat) (hl : l < 256) (hh : h < 256) :
    -32768 ≤ (if h < 128 then (l : Int) + 256 * h else (l : Int) + 256 * h - 65536)
    ∧ (if h < 128 then (l : Int) + 256 * h else (l : Int) + 256 * h - 65536) ≤ 32767 := by
  split <;> omega

theorem iio_temp_of_raw_eq (r : Int) (h1 : -32768 ≤ r) (h2 : r ≤ 32767) :
    s32 (s32 r * 1000) = r * 1000
    ∧ IioDriver.temp_of_raw r = 42500 + (r * 1000).tdiv 480
    ∧ -25766 ≤ IioDriver.temp_of_raw r ∧ IioDriver.temp_of_raw r ≤ 110764 := by
  have e1 : s32 r = r := s32_of_range r (by omega) (by omega)
  have e2 : s32 (r * 1000) = r * 1000 := s32_of_range _ (by omega) (by omega)
  unfold IioDriver.temp_of_raw
  rw [e1, e2]
  rcases le_total 0 r with hr | hr
  · have e3 := tdiv_of_nonneg (r * 1000) 480 (by omega) (by omega)
    rw [e3, s32_of_range _ (by omega) (by omega)]
    refine ⟨rfl, rfl, ?_, ?_⟩ <;> omega
  · have e3 := tdiv_of_nonpos (r * 1000) 480 (by omega) (by omega)
    rw [e3, s32_of_range _ (by omega) (by omega)]
    refine ⟨rfl, rfl, ?_, ?_⟩ <;> omega

theorem sysfs_centi_of_temp_eq (r : Int) (h1 : -32768 ≤ r) (h2 : r ≤ 32767) :
    SysfsDriver.centi_of_temp r = 4250 + (r * 100).tdiv 480 := by
  have e1 : s32 r = r := s32_of_range r (by omega) (by omega)
  have e2 : s32 (r * 100) = r * 100 := s32_of_range _ (by omega) (by omega)
  unfold SysfsDriver.centi_of_temp
  rw [e1, e2]
  rcases le_total 0 r with hr | hr
  · have e3 := tdiv_of_nonneg (r * 100) 480 (by omega) (by omega)
    rw [e3, s32_of_range _ (by omega) (by omega)]
  · have e3 := tdiv_of_nonpos (r * 100) 480 (by omega) (by omega)
    rw [e3, s32_of_range _ (by omega) (by omega)]

theorem split_milli (temp : Int) (h1 : -25766 ≤ temp) (h2 : temp ≤ 110764) :
    s32 (temp.tdiv 1000) = temp.tdiv 1000
    ∧ s32 (temp.tmod 1000 * 1000) = temp.tmod 1000 * 1000
    ∧ temp.tdiv 1000 * 1000000 + temp.tmod 1000 * 1000 = temp * 1000 := by
  have hm := tmod_eq_sub temp 1000
  rcases le_total 0 temp with ht | ht
  · have e3 := tdiv_of_nonneg temp 1000 ht (by omega)
    rw [hm, e3]
    refine ⟨s32_of_range _ (by omega) (by omega), s32_of_range _ (by omega) (by omega), ?_⟩
    omega
  · have e3 := tdiv_of_nonpos temp 1000 ht (by omega)
    rw [hm, e3]
    refine ⟨s32_of_range _ (by omega) (by omega), s32_of_range _ (by omega) (by omega), ?_⟩
    omega

theorem registered_groups_append (a b : List Event) :
    registered_groups (a ++ b) = registered_groups a + registered_groups b := by
  induction a with
  | nil => simp [registered_groups]
  | cons e es ih =>
    cases e <;> (rw [List.cons_append]; simp only [registered_groups]; omega)

/-! ## Claims -/

/-- C3: on both surfaces the temperature read takes the answer `l` of the
first bus read (register 0x2B) as low byte and the answer `h` of the second
(register 0x2C) as high byte, and the raw sample it builds is the signed
16-bit reading of `l | (h << 8)`, that is `l + 256*h` when `h < 128` and
`l + 256*h - 65536` otherwise; the visible results are computed from that
sample. The bytes `0x34`, `0x12` give `4660`, and `lps25h_read_raw` and
`lps25h_temp_read` build the same sample from the same bytes. -/
theorem raw_sample_little_endian (host : Host) (chan : iio_chan_spec) (val val2 : Int)
    (buf : Buf) (t : List Event) (l h : Nat) (hchan : chan.type = IIO_TEMP)
    (hl : l < 256) (hh : h < 256)
    (hlo : host.i2c_smbus_read_byte_data t 0x2B = l)
    (hhi : host.i2c_smbus_read_byte_data (t ++ [Event.i2c_read 0x2B l]) 0x2C = h) :
    let r : Int := if h < 128 then (l : Int) + 256 * h else (l : Int) + 256 * h - 65536
    let a := IioDriver.lps25h_read_raw_body host chan val val2 IIO_CHAN_INFO_SCALE t
    let b := SysfsDriver.lps25h_temp_read_body host buf t
    let x := IioDriver.lps25h_read_raw host chan val val2 IIO_CHAN_INFO_SCALE t
    let y := SysfsDriver.lps25h_temp_read host buf t
    r = s16 ((l ||| (h <<< 8) : Nat) : Int)
    ∧ a.2 = some r
    ∧ b.2 = some r
    ∧ a.2 = b.2
    ∧ x.trace = t ++ [Event.i2c_read 0x2B l, Event.i2c_read 0x2C h]
    ∧ y.trace = t ++ [Event.i2c_read 0x2B l, Event.i2c_read 0x2C h]
    ∧ x.val = s32 ((IioDriver.temp_of_raw r).tdiv 1000)
    ∧ x.val2 = s32 ((IioDriver.temp_of_raw r).tmod 1000 * 1000)
    ∧ y.ret = (sprintf_d_nl buf (SysfsDriver.centi_of_temp r)).1
    ∧ y.buf = (sprintf_d_nl buf (SysfsDriver.centi_of_temp r)).2
    ∧ (IioDriver.lps25h_read_raw_body (fixedHost 0x34 0x12 0xBD 0) chan val val2
        IIO_CHAN_INFO_SCALE t).2 = some 4660
    ∧ (SysfsDriver.lps25h_temp_read_body (fixedHost 0x34 0x12 0xBD 0) buf t).2
        = some 4660 := by
  intro r a b x y
  have hnl : ¬ ((l : Int) < 0) := by omega
  have hnh : ¬ ((h : Int) < 0) := by omega
  have hri : IioDriver.raw_or_high (IioDriver.raw_low l) h = r := iio_raw_of_bytes l h hl hh
  have hrs : SysfsDriver.temp_or_high (SysfsDriver.temp_low l) h = r :=
    sysfs_temp_of_bytes l h hl hh
  have ha : a = (ReadRaw.mk IIO_VAL_INT_PLUS_MICRO (s32 ((IioDriver.temp_of_raw r).tdiv 1000))
      (s32 ((IioDriver.temp_of_raw r).tmod 1000 * 1000))
      (t ++ [Event.i2c_read 0x2B l, Event.i2c_read 0x2C h]), some r) := by
    show IioDriver.lps25h_read_raw_body host chan val val2 IIO_CHAN_INFO_SCALE t = _
    unfold IioDriver.lps25h_read_raw_body
    simp only [LPS25H_TEMP_OUT_L_REG, LPS25H_TEMP_OUT_H_REG, hchan, hlo, hhi, hnl, hnh,
      if_true, if_false, hri, List.append_assoc, List.singleton_append]
  have hb : b = (Shown.mk (sprintf_d_nl buf (SysfsDriver.centi_of_temp r)).1
      (sprintf_d_nl buf (SysfsDriver.centi_of_temp r)).2
      (t ++ [Event.i2c_read 0x2B l, Event.i2c_read 0x2C h]), some r) := by
    show SysfsDriver.lps25h_temp_read_body host buf t = _
    unfold SysfsDriver.lps25h_temp_read_body
    simp only [LPS25H_TEMP_OUT_L_REG, LPS25H_TEMP_OUT_H_REG, hlo, hhi, hnl, hnh,
      if_false, hrs, List.append_assoc, List.singleton_append]
  have hx : x = a.1 := rfl
  have hy : y = b.1 := rfl
  have h4 : IioDriver.raw_or_high (IioDriver.raw_low ((0x34 : Nat) : Int)) ((0x12 : Nat) : Int)
      = 4660 := by
    rw [iio_raw_of_bytes 0x34 0x12 (by decide) (by decide)]; decide
  have h5 : SysfsDriver.temp_or_high (SysfsDriver.temp_low ((0x34 : Nat) : Int))
      ((0x12 : Nat) : Int) = 4660 := by
    rw [sysfs_temp_of_bytes 0x34 0x12 (by decide) (by decide)]; decide
  rw [hx, hy, ha, hb]
  refine ⟨?_, rfl, rfl, rfl, rfl, rfl, rfl, rfl, rfl, rfl, ?_, ?_⟩
  · rw [nat_lor_shift l h hl]
    show r = _
    unfold s16
    push_cast
    simp only [r]
    split <;> omega
  · unfold IioDriver.lps25h_read_raw_body
    simp only [fixedHost, LPS25H_TEMP_OUT_L_REG, LPS25H_TEMP_OUT_H_REG, hchan]
    norm_num
    exact h4
  · unfold SysfsDriver.lps25h_temp_read_body
    simp only [fixedHost, LPS25H_TEMP_OUT_L_REG, LPS25H_TEMP_OUT_H_REG]
    norm_num
    exact h5

/-- Witness for C3: the bytes `0xff` (from 0x2B) and `0x80` (from 0x2C) give the
raw sample `-32513` on both surfaces. -/
theorem raw_sample_little_endian_witness :
    (IioDriver.lps25h_read_raw_body (fixedHost 0xff 0x80 0xBD 0)
        { type := IIO_TEMP, indexed := 1, channel := 0,
          address := LPS25H_TEMP_OUT_L_REG, scan_index := 0 } 7 8 IIO_CHAN_INFO_SCALE []).2
      = some (-32513)
    ∧ (SysfsDriver.lps25h_temp_read_body (fixedHost 0xff 0x80 0xBD 0) zeroBuf []).2
      = some (-32513)
    ∧ (SysfsDriver.lps25h_temp_read (fixedHost 0xff 0x80 0xBD 0) zeroBuf []).trace
      = [Event.i2c_read 0x2B 0xff, Event.i2c_read 0x2C 0x80] := by
  have w := raw_sample_little_endian (fixedHost 0xff 0x80 0xBD 0)
    { type := IIO_TEMP, indexed := 1, channel := 0,
      address := LPS25H_TEMP_OUT_L_REG, scan_index := 0 } 7 8 zeroBuf [] 0xff 0x80
    rfl (by decide) (by decide) rfl rfl
  exact ⟨w.2.1.trans (by decide), w.2.2.1.trans (by decide), w.2.2.2.2.2.1⟩

/-- C1: a SCALE query on the temperature channel whose two bus reads succeed
with the bytes `l` and `h` returns `IIO_VAL_INT_PLUS_MICRO` with
`val = temp / 1000` and `val2 = (temp % 1000) * 1000`, where
`temp = 42500 + r*1000/480` (truncating division) and `r` is the signed 16-bit
value of the two bytes; hence `val*1000000 + val2 = temp*1000`. The product
`r*1000` stays inside 32 bits, and `r = 0`, `-32768`, `32767` give `42500`,
`-25766`, `110764`. -/
theorem iio_scale_query_temperature (host : Host) (chan : iio_chan_spec) (val val2 : Int)
    (t : List Event) (l h : Nat) (hchan : chan.type = IIO_TEMP) (hl : l < 256) (hh : h < 256)
    (hlo : host.i2c_smbus_read_byte_data t LPS25H_TEMP_OUT_L_REG = l)
    (hhi : host.i2c_smbus_read_byte_data (t ++ [Event.i2c_read LPS25H_TEMP_OUT_L_REG l])
      LPS25H_TEMP_OUT_H_REG = h) :
    let r : Int := if h < 128 then (l : Int) + 256 * h else (l : Int) + 256 * h - 65536
    let temp : Int := 42500 + (r * 1000).tdiv 480
    let out := IioDriver.lps25h_read_raw host chan val val2 IIO_CHAN_INFO_SCALE t
    out.ret = IIO_VAL_INT_PLUS_MICRO
    ∧ out.val = temp.tdiv 1000
    ∧ out.val2 = temp.tmod 1000 * 1000
    ∧ out.val * 1000000 + out.val2 = temp * 1000
    ∧ out.trace = t ++ [Event.i2c_read LPS25H_TEMP_OUT_L_REG l,
        Event.i2c_read LPS25H_TEMP_OUT_H_REG h]
    ∧ IioDriver.temp_of_raw r = temp
    ∧ s32 (s32 r * 1000) = r * 1000
    ∧ -2147483648 ≤ r * 1000 ∧ r * 1000 ≤ 2147483647
    ∧ IioDriver.temp_of_raw 0 = 42500
    ∧ IioDriver.temp_of_raw (-32768) = -25766
    ∧ IioDriver.temp_of_raw 32767 = 110764 := by
  intro r temp out
  have hr := raw_range l h hl hh
  have hraw : IioDriver.raw_or_high (IioDriver.raw_low l) h = r := iio_raw_of_bytes l h hl hh
  have ht := iio_temp_of_raw_eq r hr.1 hr.2
  have htemp : IioDriver.temp_of_raw r = temp := ht.2.1
  have hsp := split_milli temp (htemp ▸ ht.2.2.1) (htemp ▸ ht.2.2.2)
  have hnl : ¬ ((l : Int) < 0) := by omega
  have hnh : ¬ ((h : Int) < 0) := by omega
  have hout : out = ReadRaw.mk IIO_VAL_INT_PLUS_MICRO (temp.tdiv 1000)
      (temp.tmod 1000 * 1000)
      (t ++ [Event.i2c_read LPS25H_TEMP_OUT_L_REG l,
        Event.i2c_read LPS25H_TEMP_OUT_H_REG h]) := by
    show IioDriver.lps25h_read_raw host chan val val2 IIO_CHAN_INFO_SCALE t = _
    unfold IioDriver.lps25h_read_raw IioDriver.lps25h_read_raw_body
    simp only [hchan, hlo, hhi, hnl, hnh, if_true, if_false, hraw, htemp, hsp.1, hsp.2.1,
      List.append_assoc, List.singleton_append]
  rw [hout]
  refine ⟨rfl, rfl, rfl, hsp.2.2, rfl, htemp, ht.1, by omega, by omega,
    by decide, by decide, by decide⟩

/-- Witness for C1: the bytes `0x34`, `0x12` give 52.208 degrees. -/
theorem iio_scale_query_temperature_witness :
    (IioDriver.lps25h_read_raw (fixedHost 0x34 0x12 0xBD 0)
        { type := IIO_TEMP, indexed := 1, channel := 0,
          address := LPS25H_TEMP_OUT_L_REG, scan_index := 0 } 7 7 IIO_CHAN_INFO_SCALE []).val
      = 52
    ∧ (IioDriver.lps25h_read_raw (fixedHost 0x34 0x12 0xBD 0)
        { type := IIO_TEMP, indexed := 1, channel := 0,
          address := LPS25H_TEMP_OUT_L_REG, scan_index := 0 } 7 7 IIO_CHAN_INFO_SCALE []).val2
      = 208000 := by
  have w := iio_scale_query_temperature (fixedHost 0x34 0x12 0xBD 0)
    { type := IIO_TEMP, indexed := 1, channel := 0,
      address := LPS25H_TEMP_OUT_L_REG, scan_index := 0 } 7 7 [] 0x34 0x12
    rfl (by decide) (by decide) rfl rfl
  exact ⟨w.2.1.trans (by decide), w.2.2.1.trans (by decide)⟩

/-- C2: reading the "temperature" attribute when the two bus reads succeed
with the bytes `l` and `h` hands the reader the decimal text of
`4250 + r*100/480` (truncating division, `r` the signed 16-bit value of the
bytes) followed by a newline, and returns the number of characters written,
newline included;
`r = 0`, `-32768`, `32767` give `4250`, `-2576`, `11076`. -/
theorem sysfs_temperature_attribute (host : Host) (buf : Buf) (t : List Event) (l h : Nat)
    (hl : l < 256) (hh : h < 256)
    (hlo : host.i2c_smbus_read_byte_data t LPS25H_TEMP_OUT_L_REG = l)
    (hhi : host.i2c_smbus_read_byte_data (t ++ [Event.i2c_read LPS25H_TEMP_OUT_L_REG l])
      LPS25H_TEMP_OUT_H_REG = h) :
    let r : Int := if h < 128 then (l : Int) + 256 * h else (l : Int) + 256 * h - 65536
    let text : List Nat :=
      (toString (4250 + (r * 100).tdiv 480) ++ "\n").toList.map Char.toNat
    let out := SysfsDriver.lps25h_temp_read host buf t
    shown out.ret out.buf = text
    ∧ out.ret = text.length
    ∧ out.trace = t ++ [Event.i2c_read LPS25H_TEMP_OUT_L_REG l,
        Event.i2c_read LPS25H_TEMP_OUT_H_REG h]
    ∧ SysfsDriver.centi_of_temp r = 4250 + (r * 100).tdiv 480
    ∧ SysfsDriver.centi_of_temp 0 = 4250
    ∧ SysfsDriver.centi_of_temp (-32768) = -2576
    ∧ SysfsDriver.centi_of_temp 32767 = 11076 := by
  intro r text out
  have hr := raw_range l h hl hh
  have hraw : SysfsDriver.temp_or_high (SysfsDriver.temp_low l) h = r :=
    sysfs_temp_of_bytes l h hl hh
  have hc : SysfsDriver.centi_of_temp r = 4250 + (r * 100).tdiv 480 :=
    sysfs_centi_of_temp_eq r hr.1 hr.2
  have hnl : ¬ ((l : Int) < 0) := by omega
  have hnh : ¬ ((h : Int) < 0) := by omega
  have hout : out = Shown.mk (text.length : Int) (store buf 0 (text ++ [0]))
      (t ++ [Event.i2c_read LPS25H_TEMP_OUT_L_REG l,
        Event.i2c_read LPS25H_TEMP_OUT_H_REG h]) := by
    show SysfsDriver.lps25h_temp_read host buf t = _
    unfold SysfsDriver.lps25h_temp_read SysfsDriver.lps25h_temp_read_body sprintf_d_nl
    simp only [hlo, hhi, hnl, hnh, if_false, hraw, hc, List.append_assoc,
      List.singleton_append]
  rw [hout]
  exact ⟨shown_store buf text, rfl, rfl, hc, by decide, by decide, by decide⟩

/-- Witness for C2: the bytes `0x00`, `0x80` (raw `-32768`) print `-2576`. -/
theorem sysfs_temperature_attribute_witness :
    shown (SysfsDriver.lps25h_temp_read (fixedHost 0x00 0x80 0xBD 0) zeroBuf []).ret
        (SysfsDriver.lps25h_temp_read (fixedHost 0x00 0x80 0xBD 0) zeroBuf []).buf
      = [45, 50, 53, 55, 54, 10]
    ∧ (SysfsDriver.lps25h_temp_read (fixedHost 0x00 0x80 0xBD 0) zeroBuf []).ret = 6 := by
  have w := sysfs_temperature_attribute (fixedHost 0x00 0x80 0xBD 0) zeroBuf [] 0x00 0x80
    (by decide) (by decide) rfl rfl
  exact ⟨w.1.trans (by decide), w.2.1.trans (by decide)⟩

/-- C4: when the read of `TEMP_OUT_L` (0x2B) fails with the error `e`, a
temperature read on either surface issues that one bus read and nothing else,
leaves its output untouched and returns `e`. -/
theorem low_read_failure_stops (host : Host) (chan : iio_chan_spec) (val val2 : Int)
    (buf : Buf) (t : List Event) (e : Int) (hchan : chan.type = IIO_TEMP) (he : e < 0)
    (hlo : host.i2c_smbus_read_byte_data t LPS25H_TEMP_OUT_L_REG = e) :
    let a := IioDriver.lps25h_read_raw host chan val val2 IIO_CHAN_INFO_SCALE t
    let b := SysfsDriver.lps25h_temp_read host buf t
    a.ret = e ∧ a.val = val ∧ a.val2 = val2
    ∧ a.trace = t ++ [Event.i2c_read 0x2B e]
    ∧ b.ret = e ∧ b.buf = buf ∧ shown b.ret b.buf = []
    ∧ b.trace = t ++ [Event.i2c_read 0x2B e] := by
  intro a b
  have ha : a = ReadRaw.mk e val val2 (t ++ [Event.i2c_read 0x2B e]) := by
    show IioDriver.lps25h_read_raw host chan val val2 IIO_CHAN_INFO_SCALE t = _
    unfold IioDriver.lps25h_read_raw IioDriver.lps25h_read_raw_body
    simp only [hchan, hlo, he, if_true]
    rfl
  have hb : b = Shown.mk e buf (t ++ [Event.i2c_read 0x2B e]) := by
    show SysfsDriver.lps25h_temp_read host buf t = _
    unfold SysfsDriver.lps25h_temp_read SysfsDriver.lps25h_temp_read_body
    simp only [hlo, he, if_true]
    rfl
  have hz : e.toNat = 0 := by omega
  rw [ha, hb]
  refine ⟨rfl, rfl, rfl, rfl, rfl, rfl, ?_, rfl⟩
  simp [shown, hz]

/-- Witness for C4: a bus whose low-byte read answers `-5`. -/
theorem low_read_failure_stops_witness :
    (IioDriver.lps25h_read_raw (fixedHost (-5) 0x12 0xBD 0)
        { type := IIO_TEMP, indexed := 1, channel := 0,
          address := LPS25H_TEMP_OUT_L_REG, scan_index := 0 } 7 8 IIO_CHAN_INFO_SCALE [])
      = ReadRaw.mk (-5) 7 8 [Event.i2c_read 0x2B (-5)]
    ∧ (SysfsDriver.lps25h_temp_read (fixedHost (-5) 0x12 0xBD 0) zeroBuf []).trace
      = [Event.i2c_read 0x2B (-5)] := by
  have w := low_read_failure_stops (fixedHost (-5) 0x12 0xBD 0)
    { type := IIO_TEMP, indexed := 1, channel := 0,
      address := LPS25H_TEMP_OUT_L_REG, scan_index := 0 } 7 8 zeroBuf [] (-5)
    rfl (by decide) rfl
  exact ⟨by decide, w.2.2.2.2.2.2.2⟩

/-- C6: a query whose kind is not SCALE, and a SCALE query on a channel whose
type is not temperature, return `-EINVAL`, leave `*val` and `*val2` untouched
and issue no bus transaction. -/
theorem unsupported_query_no_bus (host : Host) (chan : iio_chan_spec) (val val2 mask : Int)
    (t : List Event) :
    (mask ≠ IIO_CHAN_INFO_SCALE →
      IioDriver.lps25h_read_raw host chan val val2 mask t = ReadRaw.mk (-EINVAL) val val2 t)
    ∧ (chan.type ≠ IIO_TEMP →
      IioDriver.lps25h_read_raw host chan val val2 IIO_CHAN_INFO_SCALE t
        = ReadRaw.mk (-EINVAL) val val2 t) := by
  constructor
  · intro hm
    unfold IioDriver.lps25h_read_raw IioDriver.lps25h_read_raw_body
    rw [if_neg hm]
  · intro hc
    unfold IioDriver.lps25h_read_raw IioDriver.lps25h_read_raw_body
    rw [if_pos rfl, if_neg hc]

/-- Witness for C6: a raw-count query (kind 0) on the temperature channel and a
SCALE query on a channel of type 0. -/
theorem unsupported_query_no_bus_witness :
    (0 : Int) ≠ IIO_CHAN_INFO_SCALE
    ∧ IioDriver.lps25h_read_raw (fixedHost 0x34 0x12 0xBD 0)
        { type := IIO_TEMP, indexed := 1, channel := 0,
          address := LPS25H_TEMP_OUT_L_REG, scan_index := 0 } 7 8 0 []
      = ReadRaw.mk (-22) 7 8 []
    ∧ (0 : Int) ≠ IIO_TEMP
    ∧ IioDriver.lps25h_read_raw (fixedHost 0x34 0x12 0xBD 0)
        { type := 0, indexed := 1, channel := 0,
          address := LPS25H_TEMP_OUT_L_REG, scan_index := 0 } 7 8 IIO_CHAN_INFO_SCALE []
      = ReadRaw.mk (-22) 7 8 [] :=
  ⟨by decide,
   (unsupported_query_no_bus (fixedHost 0x34 0x12 0xBD 0)
      { type := IIO_TEMP, indexed := 1, channel := 0,
        address := LPS25H_TEMP_OUT_L_REG, scan_index := 0 } 7 8 0 []).1 (by decide),
   by decide,
   (unsupported_query_no_bus (fixedHost 0x34 0x12 0xBD 0)
      { type := 0, indexed := 1, channel := 0,
        address := LPS25H_TEMP_OUT_L_REG, scan_index := 0 } 7 8 0 []).2 (by decide)⟩

/-- C7: every call of enable issues the single bus write of `0x90` to register
`0x20`, every call of disable the single write of `0x00` to `0x20`, each
returning the transport result of its own write; enable, disable, enable
appends exactly the three writes `0x90`, `0x00`, `0x90` to the log. This holds
for the IIO and for the sysfs driver. -/
theorem enable_disable_writes (host : Host) (t : List Event) :
    IioDriver.lps25h_enable host t
      = (host.i2c_smbus_write_byte_data t 0x20 0x90,
         t ++ [Event.i2c_write 0x20 0x90 (host.i2c_smbus_write_byte_data t 0x20 0x90)])
    ∧ IioDriver.lps25h_disable host t
      = (host.i2c_smbus_write_byte_data t 0x20 0x00,
         t ++ [Event.i2c_write 0x20 0x00 (host.i2c_smbus_write_byte_data t 0x20 0x00)])
    ∧ SysfsDriver.lps25h_enable host t = IioDriver.lps25h_enable host t
    ∧ SysfsDriver.lps25h_disable host t = IioDriver.lps25h_disable host t
    ∧ (let e1 := IioDriver.lps25h_enable host t
       let d := IioDriver.lps25h_disable host e1.2
       let e2 := IioDriver.lps25h_enable host d.2
       e2.2 = t ++ [Event.i2c_write 0x20 0x90 e1.1, Event.i2c_write 0x20 0x00 d.1,
         Event.i2c_write 0x20 0x90 e2.1])
    ∧ (let e1 := SysfsDriver.lps25h_enable host t
       let d := SysfsDriver.lps25h_disable host e1.2
       let e2 := SysfsDriver.lps25h_enable host d.2
       e2.2 = t ++ [Event.i2c_write 0x20 0x90 e1.1, Event.i2c_write 0x20 0x00 d.1,
         Event.i2c_write 0x20 0x90 e2.1]) := by
  refine ⟨rfl, rfl, rfl, rfl, ?_, ?_⟩
  · simp [IioDriver.lps25h_enable, IioDriver.lps25h_disable, LPS25H_CTRL_REG1]
  · simp [SysfsDriver.lps25h_enable, SysfsDriver.lps25h_disable, LPS25H_CTRL_REG1]

/-- C8: when the read of the identity register `0x0F` succeeds with the byte
`b`, reading "who_am_i" issues that one bus read, returns 1 and hands the
reader the single byte `b` unchanged (`0xBD` for `b = 0xBD`); when the read
fails with the error `e` it returns `e` and hands the reader nothing. This
holds for `lps25h.c` and `lps25h-2.c`. -/
theorem who_am_i_verbatim (host : Host) (buf : Buf) (t : List Event) :
    (∀ b : Nat, b < 256 → host.i2c_smbus_read_byte_data t 0x0F = b →
      (let out := SysfsDriver.lps25h_who_am_i host buf t
       out.ret = 1 ∧ shown out.ret out.buf = [b]
       ∧ out.trace = t ++ [Event.i2c_read 0x0F b])
      ∧ (let out := SysfsDriver2.lps25h_who_am_i host buf t
       out.ret = 1 ∧ shown out.ret out.buf = [b]
       ∧ out.trace = t ++ [Event.i2c_read 0x0F b]))
    ∧ (∀ e : Int, e < 0 → host.i2c_smbus_read_byte_data t 0x0F = e →
      (let out := SysfsDriver.lps25h_who_am_i host buf t
       out.ret = e ∧ out.buf = buf ∧ shown out.ret out.buf = []
       ∧ out.trace = t ++ [Event.i2c_read 0x0F e])
      ∧ (let out := SysfsDriver2.lps25h_who_am_i host buf t
       out.ret = e ∧ out.buf = buf ∧ shown out.ret out.buf = []
       ∧ out.trace = t ++ [Event.i2c_read 0x0F e])) := by
  constructor
  · intro b hb hrd
    have hn : ¬ ((b : Int) < 0) := by omega
    have hu : u8 (b : Int) = b := by unfold u8; omega
    have h1 : SysfsDriver.lps25h_who_am_i host buf t
        = Shown.mk 1 (Function.update buf 0 b) (t ++ [Event.i2c_read 0x0F b]) := by
      unfold SysfsDriver.lps25h_who_am_i
      simp only [LPS25H_WHO_AM_I_REG, hrd, hn, if_false, hu]
    have h2 : SysfsDriver2.lps25h_who_am_i host buf t
        = Shown.mk 1 (Function.update buf 0 b) (t ++ [Event.i2c_read 0x0F b]) := by
      unfold SysfsDriver2.lps25h_who_am_i
      simp only [LPS25H_WHO_AM_I_REG, hrd, hn, if_false, hu]
    simp only [h1, h2]
    simp [shown, List.range_succ]
  · intro e he hrd
    have hz : e.toNat = 0 := by omega
    have h1 : SysfsDriver.lps25h_who_am_i host buf t
        = Shown.mk e buf (t ++ [Event.i2c_read 0x0F e]) := by
      unfold SysfsDriver.lps25h_who_am_i
      simp only [LPS25H_WHO_AM_I_REG, hrd, he, if_true]
    have h2 : SysfsDriver2.lps25h_who_am_i host buf t
        = Shown.mk e buf (t ++ [Event.i2c_read 0x0F e]) := by
      unfold SysfsDriver2.lps25h_who_am_i
      simp only [LPS25H_WHO_AM_I_REG, hrd, he, if_true]
    simp only [h1, h2]
    simp [shown, hz]

/-- Witness for C8: an identity register holding `0xBD`, and a bus whose
identity read answers `-6`. -/
theorem who_am_i_verbatim_witness :
    shown (SysfsDriver.lps25h_who_am_i (fixedHost 0 0 0xBD 0) zeroBuf []).ret
        (SysfsDriver.lps25h_who_am_i (fixedHost 0 0 0xBD 0) zeroBuf []).buf = [0xBD]
    ∧ (SysfsDriver2.lps25h_who_am_i (fixedHost 0 0 (-6) 0) zeroBuf []).ret = -6 :=
  ⟨((who_am_i_verbatim (fixedHost 0 0 0xBD 0) zeroBuf []).1 0xBD (by decide) rfl).1.2.1,
   ((who_am_i_verbatim (fixedHost 0 0 (-6) 0) zeroBuf []).2 (-6) (by decide) rfl).2.1⟩

/-- C5: in the sysfs driver, when allocation and attribute-group creation
succeed and the enable write fails with the error `e`, probe removes the
attribute group exactly once after the failed write, returns `e`, and leaves
as many groups registered as before the call. -/
theorem probe_enable_failure_rolls_back (host : Host) (t : List Event) (e : Int)
    (halloc : host.devm_kzalloc t = true)
    (hgroup : host.sysfs_create_group
      (t ++ [Event.devm_kzalloc true, Event.i2c_set_clientdata]) = 0)
    (hwrite : host.i2c_smbus_write_byte_data
      (t ++ [Event.devm_kzalloc true, Event.i2c_set_clientdata, Event.sysfs_create_group 0])
      0x20 0x90 = e)
    (he : e ≠ 0) :
    let out := SysfsDriver.lps25h_i2c_probe host t
    out.1 = e
    ∧ out.2 = t ++ [Event.devm_kzalloc true, Event.i2c_set_clientdata,
        Event.sysfs_create_group 0, Event.i2c_write 0x20 0x90 e,
        Event.dev_err "failed to issue enable\n", Event.sysfs_remove_group]
    ∧ (out.2.drop t.length).count Event.sysfs_remove_group = 1
    ∧ registered_groups out.2 = registered_groups t := by
  intro out
  have hout : out = (e, t ++ [Event.devm_kzalloc true, Event.i2c_set_clientdata,
        Event.sysfs_create_group 0, Event.i2c_write 0x20 0x90 e,
        Event.dev_err "failed to issue enable\n", Event.sysfs_remove_group]) := by
    show SysfsDriver.lps25h_i2c_probe host t = _
    unfold SysfsDriver.lps25h_i2c_probe SysfsDriver.lps25h_enable
    simp [halloc, hgroup, hwrite, he, LPS25H_CTRL_REG1]
  rw [hout]
  refine ⟨rfl, rfl, ?_, ?_⟩
  · simp only [List.drop_left]
    simp [List.count_cons]
  · simp only [registered_groups_append]
    simp [registered_groups]

/-- Witness for C5: a host whose bus writes all answer `-5`. -/
theorem probe_enable_failure_rolls_back_witness :
    SysfsDriver.lps25h_i2c_probe (fixedHost 0 0 0xBD (-5)) []
      = (-5, [Event.devm_kzalloc true, Event.i2c_set_clientdata,
          Event.sysfs_create_group 0, Event.i2c_write 0x20 0x90 (-5),
          Event.dev_err "failed to issue enable\n", Event.sysfs_remove_group])
    ∧ registered_groups (SysfsDriver.lps25h_i2c_probe (fixedHost 0 0 0xBD (-5)) []).2 = 0 := by
  have w := probe_enable_failure_rolls_back (fixedHost 0 0 0xBD (-5)) [] (-5)
    rfl rfl rfl (by decide)
  exact ⟨Prod.ext w.1 w.2.1, w.2.2.2⟩

/-- Counterexample to C9 as stated: on a host whose calls all succeed, the
sysfs teardown issues the disable write first and removes the attribute group
afterwards, so the surface is not unregistered before the disable write. -/
theorem remove_order_counterexample :
    (SysfsDriver.lps25h_i2c_remove (fixedHost 0 0 0xBD 0) []).2
      = [Event.i2c_write 0x20 0x00 0, Event.sysfs_remove_group]
    ∧ ¬ (first_index is_unregister (SysfsDriver.lps25h_i2c_remove (fixedHost 0 0 0xBD 0) []).2
        < first_index (is_ctrl_write 0x00)
          (SysfsDriver.lps25h_i2c_remove (fixedHost 0 0 0xBD 0) []).2) := by
  decide

/-- C9 (amended): the IIO teardown unregisters the device and then issues the
disable write; the sysfs teardown issues the disable write and then removes the
attribute group; both return 0 whatever the disable write answers. -/
theorem remove_order_and_result (host : Host) (t : List Event) :
    IioDriver.lps25h_i2c_remove host t
      = (0, t ++ [Event.iio_device_unregister,
          Event.i2c_write 0x20 0x00
            (host.i2c_smbus_write_byte_data (t ++ [Event.iio_device_unregister]) 0x20 0x00)])
    ∧ SysfsDriver.lps25h_i2c_remove host t
      = (0, t ++ [Event.i2c_write 0x20 0x00 (host.i2c_smbus_write_byte_data t 0x20 0x00),
          Event.sysfs_remove_group])
    ∧ first_index is_unregister ((IioDriver.lps25h_i2c_remove host t).2.drop t.length)
        < first_index (is_ctrl_write 0x00) ((IioDriver.lps25h_i2c_remove host t).2.drop t.length)
    ∧ first_index (is_ctrl_write 0x00) ((SysfsDriver.lps25h_i2c_remove host t).2.drop t.length)
        < first_index is_unregister ((SysfsDriver.lps25h_i2c_remove host t).2.drop t.length) := by
  have h1 : IioDriver.lps25h_i2c_remove host t
      = (0, t ++ [Event.iio_device_unregister,
          Event.i2c_write 0x20 0x00
            (host.i2c_smbus_write_byte_data (t ++ [Event.iio_device_unregister]) 0x20 0x00)]) := by
    simp [IioDriver.lps25h_i2c_remove, IioDriver.lps25h_disable, LPS25H_CTRL_REG1]
  have h2 : SysfsDriver.lps25h_i2c_remove host t
      = (0, t ++ [Event.i2c_write 0x20 0x00 (host.i2c_smbus_write_byte_data t 0x20 0x00),
          Event.sysfs_remove_group]) := by
    simp [SysfsDriver.lps25h_i2c_remove, SysfsDriver.lps25h_disable, LPS25H_CTRL_REG1]
  refine ⟨h1, h2, ?_, ?_⟩
  · rw [h1]
    simp [first_index, is_unregister, is_ctrl_write, LPS25H_CTRL_REG1]
  · rw [h2]
    simp [first_index, is_unregister, is_ctrl_write, LPS25H_CTRL_REG1]

/-- C10: the two temperature formulas disagree after truncation: there are
bytes (`0xff`, `0xff`, raw sample `-1`) for which the sysfs value
`4250 + r*100/480` differs from the IIO milli value `42500 + r*1000/480`
divided by 10 with truncating division. -/
theorem centi_not_derivable_from_milli :
    ∃ l h : Nat, l < 256 ∧ h < 256
      ∧ IioDriver.raw_or_high (IioDriver.raw_low l) h = -1
      ∧ SysfsDriver.temp_or_high (SysfsDriver.temp_low l) h = -1
      ∧ SysfsDriver.centi_of_temp (SysfsDriver.temp_or_high (SysfsDriver.temp_low l) h) = 4250
      ∧ (IioDriver.temp_of_raw (IioDriver.raw_or_high (IioDriver.raw_low l) h)).tdiv 10 = 4249
      ∧ SysfsDriver.centi_of_temp (SysfsDriver.temp_or_high (SysfsDriver.temp_low l) h)
        ≠ (IioDriver.temp_of_raw (IioDriver.raw_or_high (IioDriver.raw_low l) h)).tdiv 10 := by
  have hi : IioDriver.raw_or_high (IioDriver.raw_low (0xff : Nat)) (0xff : Nat) = -1 := by
    rw [iio_raw_of_bytes 0xff 0xff (by decide) (by decide)]; decide
  have hs : SysfsDriver.temp_or_high (SysfsDriver.temp_low (0xff : Nat)) (0xff : Nat) = -1 := by
    rw [sysfs_temp_of_bytes 0xff 0xff (by decide) (by decide)]; decide
  refine ⟨0xff, 0xff, by decide, by decide, hi, hs, ?_, ?_, ?_⟩
  · rw [hs]; decide
  · rw [hi]; decide
  · rw [hs, hi]; decide

end Lps25h
